import Mathlib

/-
Shallow embedding of the podscriber pipeline (Python sources under src/):
models.py, state.py, main.py (target selection and per-episode pipeline),
feed.py, audio.py, config.py, extractor.py, notion_writer.py.

Conventions of the embedding:
- Python datetimes are modelled as natural-number timestamps.
- Python dictionaries (the JSON ledger) are modelled as association lists
  with dict-assignment semantics (overwrite in place, append when new).
- Filesystem contents are modelled as a list of path strings.
- Network and API effects are modelled by explicit stage-outcome parameters.
-/

namespace Podscriber

/-! ## models.py -/

/-- RecipeEntry from models.py: optional fields default to None. -/
structure RecipeEntry where
  name : String
  style : Option String
  grain_bill : Option (List String)
  hop_schedule : Option (List String)
  yeast : Option String
  og : Option String
  fg : Option String
  process_notes : Option String
deriving DecidableEq

/-- BrewingInsights from models.py. -/
structure BrewingInsights where
  episode_summary : String
  brewing_techniques : List String
  recipes : List RecipeEntry
  ingredients_and_products : List String
  business_and_marketing : List String
  key_takeaways : List String
deriving DecidableEq

/-- Episode from models.py; the published datetime is modelled as a Nat timestamp. -/
structure Episode where
  number : Nat
  title : String
  published : Nat
  audio_url : String
  description : String
  podcast_name : String
deriving DecidableEq

/-! ## state.py (StateManager over the processed_episodes.json ledger) -/

/-- Value stored in the ledger for one episode key (title, notion_url, processed_at). -/
structure LedgerEntry where
  title : String
  notion_url : String
  processed_at : String
deriving DecidableEq

/-- Contents of the JSON ledger: a Python dict modelled as an association list. -/
abbrev Ledger : Type := List (String × LedgerEntry)

/-- Python dict assignment d[k] = v: overwrite in place when the key exists,
append at the end otherwise. -/
def dictSet (d : Ledger) (k : String) (v : LedgerEntry) : Ledger :=
  if d.any (fun p => p.1 == k) then
    d.map (fun p => if p.1 == k then (k, v) else p)
  else
    d ++ [(k, v)]

/-- StateManager from state.py: state_file models the contents of the ledger
file on disk, while the underscored field models the in-memory dict. -/
structure StateManager where
  state_file : Ledger
  mem_state : Ledger
deriving DecidableEq

/-- StateManager constructor: loads the in-memory dict from the file. -/
def StateManager.load (file : Ledger) : StateManager :=
  { state_file := file, mem_state := file }

/-- StateManager.is_processed: membership of str(episode_number) among the keys. -/
def is_processed (sm : StateManager) (episode_number : Nat) : Bool :=
  sm.mem_state.any (fun p => p.1 == toString episode_number)

/-- StateManager.mark_processed: assign the entry under str(episode_number) and
persist immediately (synchronous save to the file before returning). -/
def mark_processed (sm : StateManager) (episode_number : Nat)
    (notion_url episode_title processed_at : String) : StateManager :=
  let st := dictSet sm.mem_state (toString episode_number)
    { title := episode_title, notion_url := notion_url, processed_at := processed_at }
  { state_file := st, mem_state := st }

/-- StateManager.get_processed_count: len of the dict. -/
def get_processed_count (sm : StateManager) : Nat :=
  sm.mem_state.length

/-! ### Ledger helper lemmas -/

lemma dictSet_key_present (d : Ledger) (k : String) (v : LedgerEntry) :
    (dictSet d k v).any (fun p => p.1 == k) = true := by
  unfold dictSet
  by_cases h : d.any (fun p => p.1 == k) = true
  · rw [if_pos h, List.any_eq_true]
    rw [List.any_eq_true] at h
    obtain ⟨p, hp, hk⟩ := h
    exact ⟨if (p.1 == k) = true then (k, v) else p, List.mem_map.mpr ⟨p, hp, rfl⟩,
      by simp [hk]⟩
  · rw [if_neg h]
    simp

lemma dictSet_length_of_present (d : Ledger) (k : String) (v : LedgerEntry)
    (h : d.any (fun p => p.1 == k) = true) :
    (dictSet d k v).length = d.length := by
  unfold dictSet
  simp [h]

lemma length_dictSet_dictSet (d : Ledger) (k : String) (v w : LedgerEntry) :
    (dictSet (dictSet d k v) k w).length = (dictSet d k v).length :=
  dictSet_length_of_present _ _ _ (dictSet_key_present d k v)

/-- C5. Marking an episode processed persists synchronously: a StateManager
freshly loaded from the same ledger file reports is_processed = true; a second
mark_processed of the same number overwrites the entry, leaving the count
unchanged; and the file contents equal the in-memory state when the call
returns. -/
theorem c5_ledger_round_trip (file : Ledger) (n : Nat)
    (u1 t1 d1 u2 t2 d2 : String) :
    (is_processed (StateManager.load (mark_processed (StateManager.load file) n u1 t1 d1).state_file) n = true)
    ∧ (get_processed_count (mark_processed (mark_processed (StateManager.load file) n u1 t1 d1) n u2 t2 d2)
        = get_processed_count (mark_processed (StateManager.load file) n u1 t1 d1))
    ∧ ((mark_processed (StateManager.load file) n u1 t1 d1).state_file
        = (mark_processed (StateManager.load file) n u1 t1 d1).mem_state) := by
  refine ⟨?_, ?_, rfl⟩
  · exact dictSet_key_present _ _ _
  · exact length_dictSet_dictSet _ _ _ _

/-! ## main.py: target selection -/

/-- Selection of target episodes in main (main.py lines 41..52). CLI integers
are modelled as Int; a negative limit follows Python slice semantics. -/
def pySliceTake (l : List Episode) (n : Int) : List Episode :=
  if 0 ≤ n then l.take n.toNat else l.take (l.length - (-n).toNat)

/-- Target selection from main.py: an explicit episode number filters the feed
by that number alone; otherwise unprocessed episodes are filtered, floored by
from_episode and truncated by limit. -/
def select_targets (episodes : List Episode) (processed : Nat → Bool)
    (episode : Option Int) (from_episode : Option Int) (limit : Option Int) :
    List Episode :=
  match episode with
  | some e => episodes.filter (fun ep => (ep.number : Int) == e)
  | none =>
    let t1 := episodes.filter (fun ep => !(processed ep.number))
    let t2 := match from_episode with
      | some f => t1.filter (fun ep => f ≤ (ep.number : Int))
      | none => t1
    match limit with
    | some n => pySliceTake t2 n
    | none => t2

/-- Helper to build a concrete episode with a given number. -/
def mkEp (n : Nat) : Episode :=
  { number := n, title := "", published := 0, audio_url := "", description := "",
    podcast_name := "" }

/-- C6. Batch-mode selection: with a floor f and a nonnegative limit n the
targets are exactly the unprocessed episodes with number at least f, truncated
to the first n, preserving ascending episode-number order; the concrete
scenario from 5 limit 2 over unprocessed 3,5,6,7 yields 5,6; and a second
batch run whose ledger additionally marks everything the first run selected
selects nothing. -/
theorem c6_batch_selection (episodes : List Episode) (processed : Nat → Bool)
    (f n : Int) (hn : 0 ≤ n)
    (hasc : episodes.Pairwise (fun a b => a.number < b.number)) :
    (select_targets episodes processed none (some f) (some n)
        = ((episodes.filter (fun ep => !(processed ep.number))).filter
            (fun ep => f ≤ (ep.number : Int))).take n.toNat)
    ∧ ((select_targets episodes processed none (some f) (some n)).Pairwise
        (fun a b => a.number < b.number))
    ∧ ((select_targets ((List.range' 1 7).map mkEp)
          (fun m => m == 1 || m == 2 || m == 4) none (some 5) (some 2)).map Episode.number
        = [5, 6])
    ∧ (select_targets episodes
        (fun m => processed m
          || (select_targets episodes processed none none none).any (fun ep => ep.number == m))
        none none none = []) := by
  refine ⟨?_, ?_, ?_, ?_⟩
  · simp only [select_targets, pySliceTake, if_pos hn]
  · have h1 : List.Sublist (select_targets episodes processed none (some f) (some n)) episodes := by
      simp only [select_targets, pySliceTake, if_pos hn]
      exact ((List.take_sublist _ _).trans (List.filter_sublist _)).trans (List.filter_sublist _)
    exact hasc.sublist h1
  · decide
  · simp only [select_targets]
    rw [List.filter_eq_nil_iff]
    intro ep hep
    cases hpe : processed ep.number with
    | true => simp [hpe]
    | false =>
      have hany : (List.filter (fun e2 => !(processed e2.number)) episodes).any
          (fun e2 => e2.number == ep.number) = true := by
        rw [List.any_eq_true]
        exact ⟨ep, List.mem_filter.mpr ⟨hep, by simp [hpe]⟩, by simp⟩
      simp [hpe, hany]

/-- Closed witness for the batch-selection theorem at a concrete feed. -/
theorem c6_batch_selection_witness :
    (select_targets ((List.range' 1 7).map mkEp) (fun m => m == 1 || m == 2 || m == 4)
        none (some 5) (some 2)
      = ((((List.range' 1 7).map mkEp).filter
            (fun ep => !((fun m => m == 1 || m == 2 || m == 4) ep.number))).filter
          (fun ep => (5:Int) ≤ (ep.number : Int))).take (2:Int).toNat) :=
  (c6_batch_selection ((List.range' 1 7).map mkEp) (fun m => m == 1 || m == 2 || m == 4)
    5 2 (by decide) (by decide)).1

/-- C10. Explicit-episode selection bypasses the ledger and ignores the floor
and limit options entirely: whatever the processed predicate and whatever
from_episode and limit are supplied, the targets are exactly the feed episodes
whose number equals the requested one. -/
theorem c10_explicit_episode_bypasses_ledger (episodes : List Episode)
    (processed : Nat → Bool) (e : Int) (from_episode limit : Option Int) :
    select_targets episodes processed (some e) from_episode limit
      = episodes.filter (fun ep => (ep.number : Int) == e) := by
  simp only [select_targets]

/-! ## main.py: the per-episode pipeline (_process_episode)

The pipeline body is a try block over download_audio, split_audio_if_needed,
transcribe, extract_insights and create_episode_page, with mark_processed as
the final statement of the try block, a catch-all except, and a finally block
that runs cleanup_audio(audio_paths) only when audio_paths is nonempty.
audio_paths is initialised to the empty list and only assigned after
split_audio_if_needed returns, so a failure in download or split leaves it
empty. External effects are modelled by explicit stage outcomes. -/

/-- Filesystem contents as a list of path strings. -/
abbrev FS : Type := List String

/-- Path.unlink(missing_ok=True): remove every occurrence of the path. -/
def removePath (fs : FS) (p : String) : FS :=
  fs.filter (fun q => !(q == p))

/-- cleanup_audio from audio.py: unlink each path in the list. -/
def cleanup_audio (fs : FS) (paths : List String) : FS :=
  paths.foldl removePath fs

/-- Outcome of each fallible stage of one episode run: true means the call
returned normally, false means it raised. download_partial_left records
whether a failing download left a partially written file behind (the final
retry of download_audio re-raises without unlinking the partial file). -/
structure StageOutcomes where
  download_ok : Bool
  download_partial_left : Bool
  split_ok : Bool
  transcribe_ok : Bool
  extract_ok : Bool
  publish_ok : Bool
deriving DecidableEq

/-- Static data of one episode run: the downloaded path, whether the file is
over the 24 MB ceiling, the chunk paths produced on a successful split, the
chunk files already exported when a split fails partway, and the page URL
returned by publication. -/
structure EpisodeRun where
  raw_path : String
  needs_split : Bool
  chunk_paths : List String
  exported_before_fail : List String
  notion_url : String
deriving DecidableEq

/-- Publication returned without error, which requires every earlier stage to
have returned without error. -/
def reached_publication_ok (o : StageOutcomes) : Bool :=
  o.download_ok && o.split_ok && o.transcribe_ok && o.extract_ok && o.publish_ok

/-- Embedding of _process_episode from main.py: returns the StateManager and
the filesystem contents after the invocation (including the finally block). -/
def process_episode (n : Nat) (title : String) (run : EpisodeRun)
    (o : StageOutcomes) (now : String) (sm : StateManager) (fs : FS) :
    StateManager × FS :=
  if !o.download_ok then
    (sm, if o.download_partial_left then fs ++ [run.raw_path] else fs)
  else
    let fs1 := fs ++ [run.raw_path]
    if !o.split_ok then
      (sm, fs1 ++ run.exported_before_fail)
    else
      let pf := if run.needs_split
        then (run.chunk_paths, removePath (fs1 ++ run.chunk_paths) run.raw_path)
        else ([run.raw_path], fs1)
      if !o.transcribe_ok then (sm, cleanup_audio pf.2 pf.1)
      else if !o.extract_ok then (sm, cleanup_audio pf.2 pf.1)
      else if !o.publish_ok then (sm, cleanup_audio pf.2 pf.1)
      else (mark_processed sm n run.notion_url title now, cleanup_audio pf.2 pf.1)

/-- C1. Counterexample to the cleanup invariant: when the download succeeds
and split_audio_if_needed then raises, audio_paths is still empty, the finally
block cleans nothing, and the downloaded file remains on disk. -/
theorem c1_split_failure_leaves_download_on_disk :
    (process_episode 7 "t"
      { raw_path := "/tmp/podscriber/episode_7.mp3", needs_split := true,
        chunk_paths := [], exported_before_fail := [], notion_url := "" }
      { download_ok := true, download_partial_left := false, split_ok := false,
        transcribe_ok := true, extract_ok := true, publish_ok := true }
      "now" (StateManager.load []) []).2
      = ["/tmp/podscriber/episode_7.mp3"] := rfl

/-- C2 counterexample: for an episode already present in the ledger, a run
that fails at the download stage leaves the number recorded even though the
run never reached publication, refuting the biconditional as stated. -/
theorem c2_counterexample_prerecorded_failed_run :
    (is_processed (process_episode 7 "t"
        { raw_path := "ep7.mp3", needs_split := false, chunk_paths := [],
          exported_before_fail := [], notion_url := "u" }
        { download_ok := false, download_partial_left := false, split_ok := true,
          transcribe_ok := true, extract_ok := true, publish_ok := true }
        "now"
        (StateManager.load [("7", { title := "t", notion_url := "u", processed_at := "d" })])
        []).1 7 = true)
    ∧ (reached_publication_ok
        { download_ok := false, download_partial_left := false, split_ok := true,
          transcribe_ok := true, extract_ok := true, publish_ok := true } = false) :=
  ⟨rfl, rfl⟩

lemma is_processed_mark_self (sm : StateManager) (n : Nat) (u t d : String) :
    is_processed (mark_processed sm n u t d) n = true :=
  dictSet_key_present _ _ _

/-- C2 (amended). For an episode not already recorded, after a pipeline run
its number is in the ledger iff the run reached publication and publication
returned without error; and any failure at or before publication leaves the
StateManager unchanged. -/
theorem c2_ledger_iff_publication (n : Nat) (title now : String)
    (run : EpisodeRun) (o : StageOutcomes) (sm : StateManager) (fs : FS)
    (hfresh : is_processed sm n = false) :
    (is_processed (process_episode n title run o now sm fs).1 n = true
      ↔ reached_publication_ok o = true)
    ∧ (reached_publication_ok o = false
      → (process_episode n title run o now sm fs).1 = sm) := by
  obtain ⟨dk, dp, sk, tk, ek, pk⟩ := o
  cases dk <;> cases sk <;> cases tk <;> cases ek <;> cases pk <;>
    simp [process_episode, reached_publication_ok, hfresh, is_processed_mark_self]

/-- Closed witness for the amended ledger biconditional at a concrete run. -/
theorem c2_ledger_iff_publication_witness :
    (is_processed (process_episode 7 "t"
        { raw_path := "ep7.mp3", needs_split := false, chunk_paths := [],
          exported_before_fail := [], notion_url := "u" }
        { download_ok := true, download_partial_left := false, split_ok := true,
          transcribe_ok := true, extract_ok := true, publish_ok := true }
        "now" (StateManager.load []) []).1 7 = true
      ↔ reached_publication_ok
        { download_ok := true, download_partial_left := false, split_ok := true,
          transcribe_ok := true, extract_ok := true, publish_ok := true } = true) :=
  (c2_ledger_iff_publication 7 "t" "now"
    { raw_path := "ep7.mp3", needs_split := false, chunk_paths := [],
      exported_before_fail := [], notion_url := "u" }
    { download_ok := true, download_partial_left := false, split_ok := true,
      transcribe_ok := true, extract_ok := true, publish_ok := true }
    (StateManager.load []) [] rfl).1

/-! ## audio.py: split_audio_if_needed -/

/-- Whisper upload ceiling from audio.py: 24 MB. -/
def WHISPER_MAX_BYTES : Nat := 24 * 1024 * 1024

/-- Chunk duration from audio.py: 10 minutes in milliseconds. -/
def split_chunk_ms : Nat := 10 * 60 * 1000

/-- Relevant attributes of the downloaded audio file: its path, its size from
stat, and its decoded duration in milliseconds (len of the AudioSegment). -/
structure AudioInfo where
  path : String
  size_bytes : Nat
  duration_ms : Nat
deriving DecidableEq

/-- Python range(0, stop, step) for a positive step: the ceil(stop/step)
values 0, step, 2*step, and so on below stop. -/
def pyRange (stop step : Nat) : List Nat :=
  List.range' 0 ((stop + step - 1) / step) step

/-- Python format spec 03d used for chunk numbering. -/
def pad3 (i : Nat) : String :=
  if i < 10 then "00" ++ toString i
  else if i < 100 then "0" ++ toString i
  else toString i

/-- Chunk file naming from audio.py; pathlib suffix stripping and parent
joining are abstracted to concatenation on the base name. -/
def chunk_path (base : String) (i : Nat) : String :=
  base ++ "_chunk" ++ pad3 i ++ ".mp3"

/-- One exported chunk: its path and the half-open slice of the audio it was
cut from (pydub slicing clamps the stop at the total duration). -/
structure Chunk where
  path : String
  start_ms : Nat
  stop_ms : Nat
deriving DecidableEq

/-- Result of split_audio_if_needed: either the original single path, or the
list of exported chunks. -/
inductive SplitResult where
  | unchanged (p : String)
  | split (chunks : List Chunk)
deriving DecidableEq

/-- Embedding of split_audio_if_needed from audio.py, together with its effect
on the filesystem: at or under the ceiling the file is returned as the single
chunk and the filesystem is untouched; over the ceiling the chunks are
exported and the original file is unlinked. -/
def split_audio_if_needed (a : AudioInfo) (fs : FS) : SplitResult × FS :=
  if a.size_bytes ≤ WHISPER_MAX_BYTES then (.unchanged a.path, fs)
  else
    let cs := (pyRange a.duration_ms split_chunk_ms).enum.map
      (fun p => { path := chunk_path a.path p.1, start_ms := p.2,
                  stop_ms := min (p.2 + split_chunk_ms) a.duration_ms : Chunk })
    (.split cs, removePath (fs ++ cs.map Chunk.path) a.path)

/-- C4. At or under 24 MB the acquisition returns the original file unchanged;
over 24 MB it produces ceil(duration / 10 min) chunks, each spanning at most
10 minutes, with strictly increasing start times (original temporal order),
and the original path is no longer on disk afterwards. -/
theorem c4_split_audio (a : AudioInfo) (fs : FS) :
    (a.size_bytes ≤ WHISPER_MAX_BYTES →
      split_audio_if_needed a fs = (SplitResult.unchanged a.path, fs))
    ∧ (WHISPER_MAX_BYTES < a.size_bytes →
      ∃ cs, (split_audio_if_needed a fs).1 = SplitResult.split cs
        ∧ cs.length = (a.duration_ms + split_chunk_ms - 1) / split_chunk_ms
        ∧ (∀ c ∈ cs, c.stop_ms - c.start_ms ≤ split_chunk_ms)
        ∧ (cs.map Chunk.start_ms).Pairwise (fun x y => x < y)
        ∧ a.path ∉ (split_audio_if_needed a fs).2) := by
  constructor
  · intro h
    simp [split_audio_if_needed, h]
  · intro h
    have hns : ¬ a.size_bytes ≤ WHISPER_MAX_BYTES := Nat.not_le.mpr h
    refine ⟨(pyRange a.duration_ms split_chunk_ms).enum.map
        (fun p => { path := chunk_path a.path p.1, start_ms := p.2,
                    stop_ms := min (p.2 + split_chunk_ms) a.duration_ms : Chunk }),
      ?_, ?_, ?_, ?_, ?_⟩
    · simp [split_audio_if_needed, hns]
    · simp [pyRange]
    · intro c hc
      simp only [List.mem_map] at hc
      obtain ⟨p, _, rfl⟩ := hc
      simp only
      have h1 : min (p.2 + split_chunk_ms) a.duration_ms ≤ split_chunk_ms + p.2 := by
        calc min (p.2 + split_chunk_ms) a.duration_ms ≤ p.2 + split_chunk_ms :=
              Nat.min_le_left _ _
          _ = split_chunk_ms + p.2 := Nat.add_comm _ _
      exact Nat.sub_le_of_le_add h1
    · have hmap : ((pyRange a.duration_ms split_chunk_ms).enum.map
          (fun p => { path := chunk_path a.path p.1, start_ms := p.2,
                      stop_ms := min (p.2 + split_chunk_ms) a.duration_ms : Chunk })).map
            Chunk.start_ms
          = pyRange a.duration_ms split_chunk_ms := by
        rw [List.map_map]
        have : (Chunk.start_ms ∘ fun p : Nat × Nat =>
            { path := chunk_path a.path p.1, start_ms := p.2,
              stop_ms := min (p.2 + split_chunk_ms) a.duration_ms : Chunk }) = Prod.snd := by
          funext p
          rfl
        rw [this, List.enum_map_snd]
      rw [hmap]
      exact List.pairwise_lt_range' _ _ _ (by decide)
    · simp [split_audio_if_needed, hns, removePath]

/-- Closed witness for the split theorem at a 20 MB file and a 30 MB file of
60 minutes. -/
theorem c4_split_audio_witness :
    (split_audio_if_needed { path := "a.mp3", size_bytes := 20971520, duration_ms := 3600000 } []
      = (SplitResult.unchanged "a.mp3", []))
    ∧ (∃ cs, (split_audio_if_needed
          { path := "b.mp3", size_bytes := 31457280, duration_ms := 3600000 } []).1
        = SplitResult.split cs
      ∧ cs.length = (3600000 + split_chunk_ms - 1) / split_chunk_ms
      ∧ (∀ c ∈ cs, c.stop_ms - c.start_ms ≤ split_chunk_ms)
      ∧ (cs.map Chunk.start_ms).Pairwise (fun x y => x < y)
      ∧ "b.mp3" ∉ (split_audio_if_needed
          { path := "b.mp3", size_bytes := 31457280, duration_ms := 3600000 } []).2) :=
  ⟨(c4_split_audio { path := "a.mp3", size_bytes := 20971520, duration_ms := 3600000 } []).1
      (by decide),
   (c4_split_audio { path := "b.mp3", size_bytes := 31457280, duration_ms := 3600000 } []).2
      (by decide)⟩

/-! ## config.py and the configuration call in main.py -/

/-- Config dataclass from config.py. -/
structure Config where
  openai_api_key : String
  anthropic_api_key : String
  notion_api_key : String
  notion_database_id : String
  rss_feed_url : String
  temp_dir : String
deriving DecidableEq

/-- Environment variables read by load_config (os.getenv results). -/
structure EnvVars where
  openai_api_key : Option String
  anthropic_api_key : Option String
  notion_api_key : Option String
  notion_database_id : Option String
  rss_feed_url : Option String
  temp_dir : Option String
deriving DecidableEq

/-- Python truthiness of an optional string: None and the empty string are
falsy. -/
def truthyStr : Option String → Bool
  | none => false
  | some s => !s.isEmpty

/-- Python expression x or y over optional strings. -/
def pyOrStr (x y : Option String) : Option String :=
  if truthyStr x then x else y

/-- Names of the required variables whose values are falsy (config.py). -/
def missing_required (env : EnvVars) : List String :=
  (if truthyStr env.openai_api_key then [] else ["OPENAI_API_KEY"])
  ++ (if truthyStr env.anthropic_api_key then [] else ["ANTHROPIC_API_KEY"])
  ++ (if truthyStr env.notion_api_key then [] else ["NOTION_API_KEY"])
  ++ (if truthyStr env.notion_database_id then [] else ["NOTION_DATABASE_ID"])
  ++ (if truthyStr env.rss_feed_url then [] else ["RSS_FEED_URL"])

/-- Embedding of load_config from config.py: its only parameter besides the
environment is feed_url_override; a nonempty missing list raises ValueError. -/
def load_config (env : EnvVars) (feed_url_override : Option String) :
    Except String Config :=
  if (missing_required env).isEmpty then
    .ok { openai_api_key := env.openai_api_key.getD ""
        , anthropic_api_key := env.anthropic_api_key.getD ""
        , notion_api_key := env.notion_api_key.getD ""
        , notion_database_id := env.notion_database_id.getD ""
        , rss_feed_url := (pyOrStr feed_url_override env.rss_feed_url).getD ""
        , temp_dir := env.temp_dir.getD "/tmp/podscriber" }
  else
    .error "Missing required environment variables"

/-- Parameter names accepted by load_config as defined in config.py. -/
def load_config_param_names : List String :=
  ["feed_url_override"]

/-- Keyword arguments passed to load_config at the call site in main.py. -/
def main_load_config_kwargs : List String :=
  ["feed_url_override", "database_id_override"]

/-- Possible results of the load_config call as seen by main. -/
inductive PyCallResult where
  | ok (c : Config)
  | valueError (msg : String)
  | typeError
deriving DecidableEq

/-- Python call semantics for the load_config call in main.py: a keyword
argument that is not among the function parameters raises TypeError before the
body runs; otherwise the body may raise ValueError or return the Config. -/
def call_load_config (env : EnvVars) (feed_url_override : Option String) :
    PyCallResult :=
  if main_load_config_kwargs.all (fun k => load_config_param_names.contains k) then
    match load_config env feed_url_override with
    | .ok c => .ok c
    | .error m => .valueError m
  else
    .typeError

/-- Exit status of the configuration phase of main: ValueError is caught and
turned into sys.exit(1); a TypeError is not caught by the except ValueError
handler, so the interpreter terminates with a nonzero status; on a successful
call main continues (none). -/
def main_config_exit_code (env : EnvVars) (feed_url_override : Option String) :
    Option Nat :=
  match call_load_config env feed_url_override with
  | .valueError _ => some 1
  | .typeError => some 1
  | .ok _ => none

/-- C7. With every required variable present (no configuration error) and no
override flags, the load_config call still raises TypeError, because main
passes the keyword database_id_override which load_config does not accept, and
the process terminates with a nonzero status instead of exit code zero. -/
theorem c7_config_call_raises_type_error :
    ((missing_required
        { openai_api_key := some "k1", anthropic_api_key := some "k2",
          notion_api_key := some "k3", notion_database_id := some "db",
          rss_feed_url := some "https://feed", temp_dir := none }).isEmpty = true)
    ∧ (call_load_config
        { openai_api_key := some "k1", anthropic_api_key := some "k2",
          notion_api_key := some "k3", notion_database_id := some "db",
          rss_feed_url := some "https://feed", temp_dir := none } none
        = PyCallResult.typeError)
    ∧ (main_config_exit_code
        { openai_api_key := some "k1", anthropic_api_key := some "k2",
          notion_api_key := some "k3", notion_database_id := some "db",
          rss_feed_url := some "https://feed", temp_dir := none } none
        = some 1) :=
  ⟨rfl, rfl, rfl⟩

/-! ## extractor.py: extract_insights -/

/-- Input object of the tool_use block returned by the extraction
collaborator; every top-level field may be absent. -/
structure ToolInput where
  episode_summary : Option String
  brewing_techniques : Option (List String)
  recipes : Option (List RecipeEntry)
  ingredients_and_products : Option (List String)
  business_and_marketing : Option (List String)
  key_takeaways : Option (List String)
deriving DecidableEq

/-- Embedding of the response handling in extract_insights from extractor.py:
each top-level field is read with data.get and a default. -/
def extract_insights_of (data : ToolInput) : BrewingInsights :=
  { episode_summary := data.episode_summary.getD ""
  , brewing_techniques := data.brewing_techniques.getD []
  , recipes := data.recipes.getD []
  , ingredients_and_products := data.ingredients_and_products.getD []
  , business_and_marketing := data.business_and_marketing.getD []
  , key_takeaways := data.key_takeaways.getD [] }

/-- C8. Extraction is total over arbitrary collaborator responses, and every
absent top-level field defaults to an empty collection or empty string; in
particular a response missing business_and_marketing yields an empty
business_and_marketing list. -/
theorem c8_missing_fields_default (data : ToolInput) :
    (data.business_and_marketing = none →
      (extract_insights_of data).business_and_marketing = [])
    ∧ (data.episode_summary = none → (extract_insights_of data).episode_summary = "")
    ∧ (data.brewing_techniques = none → (extract_insights_of data).brewing_techniques = [])
    ∧ (data.recipes = none → (extract_insights_of data).recipes = [])
    ∧ (data.ingredients_and_products = none →
      (extract_insights_of data).ingredients_and_products = [])
    ∧ (data.key_takeaways = none → (extract_insights_of data).key_takeaways = []) := by
  refine ⟨?_, ?_, ?_, ?_, ?_, ?_⟩ <;> intro h <;> simp [extract_insights_of, h]

/-- Closed witness: a response missing every field yields all defaults. -/
theorem c8_missing_fields_default_witness :
    (extract_insights_of
      { episode_summary := none, brewing_techniques := none, recipes := none,
        ingredients_and_products := none, business_and_marketing := none,
        key_takeaways := none }).business_and_marketing = [] :=
  (c8_missing_fields_default
    { episode_summary := none, brewing_techniques := none, recipes := none,
      ingredients_and_products := none, business_and_marketing := none,
      key_takeaways := none }).1 rfl

/-! ## feed.py: parse_feed and the audio locator -/

/-- Feed enclosure as seen by _extract_audio_url; every attribute may be
absent. The attribute named type in the feed is called enc_type here. -/
structure Enclosure where
  enc_type : Option String
  href : Option String
  url : Option String
deriving DecidableEq

/-- Entry link as seen by _extract_audio_url. -/
structure FeedLink where
  rel : Option String
  href : Option String
deriving DecidableEq

/-- Feed entry; the published_parsed time struct is modelled as a Nat
timestamp when present. -/
structure FeedEntry where
  title : Option String
  published_parsed : Option Nat
  summary : Option String
  enclosures : List Enclosure
  links : List FeedLink
deriving DecidableEq

/-- Python str.startswith over the underlying character lists. -/
def pyStartsWith (s p : String) : Bool :=
  p.data.isPrefixOf s.data

/-- First loop of _extract_audio_url: the first enclosure whose type starts
with audio/ makes the function return href or url immediately (that returned
value may itself be None or empty). -/
def findAudioEnclosure : List Enclosure → Option (Option String)
  | [] => none
  | e :: rest =>
    if pyStartsWith (e.enc_type.getD "") "audio/" then some (pyOrStr e.href e.url)
    else findAudioEnclosure rest

/-- Second loop of _extract_audio_url: the first link with rel enclosure and a
truthy href. -/
def findEnclosureLink : List FeedLink → Option String
  | [] => none
  | l :: rest =>
    if l.rel == some "enclosure" then
      match l.href with
      | some h => if h.isEmpty then findEnclosureLink rest else some h
      | none => findEnclosureLink rest
    else findEnclosureLink rest

/-- Embedding of _extract_audio_url from feed.py. -/
def extract_audio_url (e : FeedEntry) : Option String :=
  match findAudioEnclosure e.enclosures with
  | some r => r
  | none => findEnclosureLink e.links

/-- Resolvable audio locator: parse_feed keeps an entry when the extracted url
is truthy. -/
def has_audio (e : FeedEntry) : Bool :=
  truthyStr (extract_audio_url e)

/-- Accumulation loop of parse_feed building entries_with_audio. -/
def entries_with_audio (entries : List FeedEntry) : List (FeedEntry × String) :=
  entries.filterMap (fun e =>
    match extract_audio_url e with
    | some s => if s.isEmpty then none else some (e, s)
    | none => none)

/-- Sort key of parse_feed: published_parsed or the zero fallback. -/
def feed_sort_key (p : FeedEntry × String) : Nat :=
  p.1.published_parsed.getD 0

/-- Comparison relation of the stable sort in parse_feed. -/
def feedLE (a b : FeedEntry × String) : Prop :=
  feed_sort_key a ≤ feed_sort_key b

instance : DecidableRel feedLE :=
  fun a b => Nat.decLe _ _

instance : IsTotal (FeedEntry × String) feedLE :=
  ⟨fun a b => Nat.le_total _ _⟩

instance : IsTrans (FeedEntry × String) feedLE :=
  ⟨fun _ _ _ => Nat.le_trans⟩

/-- Embedding of _parse_date: the parsed time struct, or the current time. -/
def parse_date (now : Nat) (pp : Option Nat) : Nat :=
  pp.getD now

/-- Numbering loop of parse_feed: enumerate(sorted_entries, start=k) building
Episode records. -/
def number_episodes (strip_html : String → String) (now : Nat)
    (podcast_name : String) (k : Nat) :
    List (FeedEntry × String) → List Episode
  | [] => []
  | p :: rest =>
    { number := k
    , title := p.1.title.getD "Untitled"
    , published := parse_date now p.1.published_parsed
    , audio_url := p.2
    , description := strip_html (p.1.summary.getD "")
    , podcast_name := podcast_name }
    :: number_episodes strip_html now podcast_name (k + 1) rest

/-- Embedding of parse_feed from feed.py. Fetching and the HTML stripping
regex are abstracted: strip_html is the _strip_html helper, now is the current
time used when published_parsed is absent, bozo is the feed parse error flag.
The Python stable sort by key is modelled by a stable insertion sort over the
same key relation. -/
def parse_feed (strip_html : String → String) (now : Nat) (bozo : Bool)
    (feed_title : Option String) (entries : List FeedEntry) : List Episode :=
  if bozo && entries.isEmpty then []
  else
    number_episodes strip_html now (feed_title.getD "Unknown Podcast") 1
      (List.insertionSort feedLE (entries_with_audio entries))

/-! ### parse_feed helper lemmas -/

lemma map_number_number_episodes (strip_html : String → String) (now : Nat)
    (pn : String) :
    ∀ (l : List (FeedEntry × String)) (k : Nat),
      (number_episodes strip_html now pn k l).map Episode.number
        = List.range' k l.length
  | [], _ => rfl
  | p :: rest, k => by
    simp only [number_episodes, List.map_cons, List.length_cons, List.range'_succ]
    exact congrArg _ (map_number_number_episodes strip_html now pn rest (k + 1))

lemma mem_number_episodes (strip_html : String → String) (now : Nat)
    (pn : String) :
    ∀ (l : List (FeedEntry × String)) (k : Nat) (b : Episode),
      b ∈ number_episodes strip_html now pn k l →
        ∃ q ∈ l, b.published = parse_date now q.1.published_parsed ∧ k ≤ b.number
  | [], _, _, h => absurd h (List.not_mem_nil _)
  | p :: rest, k, b, h => by
    rcases List.mem_cons.mp h with h1 | h2
    · exact ⟨p, List.mem_cons_self _ _, by rw [h1], by rw [h1]⟩
    · obtain ⟨q, hq, hpub, hk⟩ := mem_number_episodes strip_html now pn rest (k + 1) b h2
      exact ⟨q, List.mem_cons_of_mem _ hq, hpub, Nat.le_of_succ_le hk⟩

lemma pairwise_number_episodes (strip_html : String → String) (now : Nat)
    (pn : String) :
    ∀ (l : List (FeedEntry × String)) (k : Nat),
      l.Pairwise feedLE →
      (∀ p ∈ l, p.1.published_parsed.isSome = true) →
      (number_episodes strip_html now pn k l).Pairwise
        (fun a b => a.number < b.number ∧ a.published ≤ b.published)
  | [], _, _, _ => List.Pairwise.nil
  | p :: rest, k, hpw, hsome => by
    rw [List.pairwise_cons] at hpw
    refine List.pairwise_cons.mpr ⟨?_, pairwise_number_episodes strip_html now pn rest (k + 1)
      hpw.2 (fun q hq => hsome q (List.mem_cons_of_mem _ hq))⟩
    intro b hb
    obtain ⟨q, hq, hpub, hk⟩ := mem_number_episodes strip_html now pn rest (k + 1) b hb
    constructor
    · exact Nat.lt_of_lt_of_le (Nat.lt_succ_self k) hk
    · have hle : feed_sort_key p ≤ feed_sort_key q := hpw.1 q hq
      obtain ⟨tp, htp⟩ := Option.isSome_iff_exists.mp (hsome p (List.mem_cons_self _ _))
      obtain ⟨tq, htq⟩ := Option.isSome_iff_exists.mp
        (hsome q (List.mem_cons_of_mem _ hq))
      simp only [number_episodes]
      rw [hpub]
      simp only [parse_date, feed_sort_key, htp, htq, Option.getD_some] at hle ⊢
      exact hle

lemma pairwise_strict_increase :
    ∀ l : List Episode,
      l.Pairwise (fun a b => a.number < b.number ∧ a.published ≤ b.published) →
      ∀ a ∈ l, ∀ b ∈ l, a.published < b.published → a.number < b.number
  | [], _, _, ha, _, _, _ => absurd ha (List.not_mem_nil _)
  | x :: xs, hpw, a, ha, b, hb, hab => by
    rw [List.pairwise_cons] at hpw
    rcases List.mem_cons.mp ha with h1 | h1 <;> rcases List.mem_cons.mp hb with h2 | h2
    · rw [h1, h2] at hab
      exact absurd hab (Nat.lt_irrefl _)
    · rw [h1]
      exact (hpw.1 b h2).1
    · rw [h2] at hab
      exact absurd (Nat.lt_of_le_of_lt (hpw.1 a h1).2 hab) (Nat.lt_irrefl _)
    · exact pairwise_strict_increase xs hpw.2 a h1 b h2 hab

lemma length_entries_with_audio :
    ∀ entries : List FeedEntry,
      (entries_with_audio entries).length = entries.countP has_audio
  | [] => rfl
  | e :: rest => by
    have ih := length_entries_with_audio rest
    simp only [entries_with_audio, List.filterMap_cons, List.countP_cons] at ih ⊢
    cases hx : extract_audio_url e with
    | none => simp [has_audio, hx, truthyStr, ih]
    | some s =>
      cases hs : s.isEmpty with
      | true => simp [has_audio, hx, truthyStr, hs, ih]
      | false => simp [has_audio, hx, truthyStr, hs, ih]

lemma some_published_entries_with_audio (entries : List FeedEntry)
    (hdates : ∀ e ∈ entries, has_audio e = true → e.published_parsed.isSome = true) :
    ∀ p ∈ entries_with_audio entries, p.1.published_parsed.isSome = true := by
  intro p hp
  obtain ⟨e, he, hf⟩ := List.mem_filterMap.mp hp
  cases hx : extract_audio_url e with
  | none => rw [hx] at hf; exact absurd hf (by simp)
  | some s =>
    rw [hx] at hf
    have hf2 : (if s.isEmpty then none else some (e, s)) = some p := hf
    by_cases hs : s.isEmpty = true
    · rw [if_pos hs] at hf2
      exact absurd hf2 (by simp)
    · rw [if_neg hs] at hf2
      have hep : (e, s) = p := Option.some_inj.mp hf2
      rw [← hep]
      exact hdates e he (by
        simp [has_audio, hx, truthyStr, Bool.eq_false_iff.mpr hs])

/-! ### C3 scenario entries: feed order C, A, B with timestamps 1, 2, 3 -/

/-- Scenario entry A: oldest audio entry. -/
def entA : FeedEntry :=
  { title := some "A", published_parsed := some 1, summary := none,
    enclosures := [{ enc_type := some "audio/mpeg", href := some "http://a", url := none }],
    links := [] }

/-- Scenario entry B: middle audio entry. -/
def entB : FeedEntry :=
  { title := some "B", published_parsed := some 2, summary := none,
    enclosures := [{ enc_type := some "audio/mpeg", href := some "http://b", url := none }],
    links := [] }

/-- Scenario entry C: newest audio entry, listed first in the feed. -/
def entC : FeedEntry :=
  { title := some "C", published_parsed := some 3, summary := none,
    enclosures := [{ enc_type := some "audio/mpeg", href := some "http://c", url := none }],
    links := [] }

/-- C3. Episode numbering: with N the count of entries carrying a resolvable
audio locator, parse_feed returns episodes numbered exactly 1..N in order;
when every audio entry has a parsed publish time the returned list is ordered
oldest-first and episode numbers strictly increase with publish time; and the
concrete feed C, A, B with timestamps A before B before C is numbered A 1,
B 2, C 3. -/
theorem c3_parse_feed_numbering (strip_html : String → String) (now : Nat)
    (feed_title : Option String) (entries : List FeedEntry)
    (hdates : ∀ e ∈ entries, has_audio e = true → e.published_parsed.isSome = true) :
    ((parse_feed strip_html now false feed_title entries).map Episode.number
        = List.range' 1 (entries.countP has_audio))
    ∧ ((parse_feed strip_html now false feed_title entries).Pairwise
        (fun a b => a.number < b.number ∧ a.published ≤ b.published))
    ∧ (∀ a ∈ parse_feed strip_html now false feed_title entries,
        ∀ b ∈ parse_feed strip_html now false feed_title entries,
          a.published < b.published → a.number < b.number)
    ∧ ((parse_feed (fun s => s) 0 false (some "P") [entC, entA, entB]).map
          (fun ep => (ep.title, ep.number))
        = [("A", 1), ("B", 2), ("C", 3)]) := by
  have hpw : (List.insertionSort feedLE (entries_with_audio entries)).Pairwise feedLE :=
    List.sorted_insertionSort feedLE (entries_with_audio entries)
  have hsome : ∀ p ∈ List.insertionSort feedLE (entries_with_audio entries),
      p.1.published_parsed.isSome = true := by
    intro p hp
    exact some_published_entries_with_audio entries hdates p
      ((List.perm_insertionSort feedLE (entries_with_audio entries)).mem_iff.mp hp)
  have hepw := pairwise_number_episodes strip_html now (feed_title.getD "Unknown Podcast")
    (List.insertionSort feedLE (entries_with_audio entries)) 1 hpw hsome
  refine ⟨?_, ?_, ?_, ?_⟩
  · show (number_episodes strip_html now (feed_title.getD "Unknown Podcast") 1
        (List.insertionSort feedLE (entries_with_audio entries))).map Episode.number = _
    rw [map_number_number_episodes, List.length_insertionSort,
      length_entries_with_audio]
  · exact hepw
  · exact pairwise_strict_increase _ hepw
  · decide

/-- Closed witness for the numbering theorem at the three-entry scenario. -/
theorem c3_parse_feed_numbering_witness :
    (parse_feed (fun s => s) 0 false (some "P") [entC, entA, entB]).map Episode.number
      = List.range' 1 ([entC, entA, entB].countP has_audio) :=
  (c3_parse_feed_numbering (fun s => s) 0 (some "P") [entC, entA, entB] (by decide)).1

/-! ## notion_writer.py: page creation -/

/-- Notion rich text ceiling from notion_writer.py: 2000 characters. -/
def NOTION_TEXT_LIMIT : Nat := 2000

/-- Notion children-per-call ceiling from notion_writer.py: 100 blocks. -/
def NOTION_BLOCK_LIMIT : Nat := 100

/-- Python slicing text to the text limit, applied by every block helper. -/
def trunc (s : String) : String :=
  s.take NOTION_TEXT_LIMIT

/-- Notion content block, carrying its rich text contents. -/
inductive Block where
  | callout (text : String) (emoji : String)
  | divider
  | heading2 (text : String)
  | heading3 (text : String)
  | paragraph (text : String)
  | bulletedItem (text : String)
deriving DecidableEq

/-- Block helper _heading2. -/
def mkHeading2 (t : String) : Block :=
  .heading2 (trunc t)

/-- Block helper _heading3. -/
def mkHeading3 (t : String) : Block :=
  .heading3 (trunc t)

/-- Block helper _paragraph. -/
def mkParagraph (t : String) : Block :=
  .paragraph (trunc t)

/-- Block helper _callout. -/
def mkCallout (t emoji : String) : Block :=
  .callout (trunc t) emoji

/-- Block helper _bulleted_list from notion_writer.py. -/
def bulleted_list (items : List String) (empty_text : String) : List Block :=
  if items.isEmpty then
    if empty_text.isEmpty then [] else [mkParagraph empty_text]
  else
    items.map (fun i => Block.bulletedItem (trunc i))

/-- Python truthiness of an optional list. -/
def truthyList : Option (List String) → Bool
  | none => false
  | some l => !l.isEmpty

/-- Detail lines assembled by _recipe_blocks. -/
def recipe_details (r : RecipeEntry) : List String :=
  (if truthyStr r.style then ["Style: " ++ r.style.getD ""] else [])
  ++ (if truthyStr r.og then ["OG: " ++ r.og.getD ""] else [])
  ++ (if truthyStr r.fg then ["FG: " ++ r.fg.getD ""] else [])
  ++ (if truthyStr r.yeast then ["Yeast: " ++ r.yeast.getD ""] else [])
  ++ (if truthyList r.grain_bill then
        "Grain Bill:" :: (r.grain_bill.getD []).map (fun g => "  • " ++ g) else [])
  ++ (if truthyList r.hop_schedule then
        "Hop Schedule:" :: (r.hop_schedule.getD []).map (fun h => "  • " ++ h) else [])
  ++ (if truthyStr r.process_notes then ["Process: " ++ r.process_notes.getD ""] else [])

/-- Embedding of _recipe_blocks. -/
def recipe_blocks (r : RecipeEntry) : List Block :=
  mkHeading3 r.name :: bulleted_list (recipe_details r) ""

/-- Embedding of _build_blocks from notion_writer.py. -/
def build_blocks (ep : Episode) (ins : BrewingInsights) : List Block :=
  [mkCallout ins.episode_summary "🍺", Block.divider, mkHeading2 "Brewing Techniques"]
  ++ bulleted_list ins.brewing_techniques
      "No techniques specifically noted in this episode."
  ++ [Block.divider, mkHeading2 "Recipes"]
  ++ (if ins.recipes.isEmpty then [mkParagraph "No recipes discussed in this episode."]
      else ins.recipes.flatMap recipe_blocks)
  ++ [Block.divider, mkHeading2 "Ingredients & Products Mentioned"]
  ++ bulleted_list ins.ingredients_and_products
      "No specific ingredients or products mentioned."
  ++ [Block.divider, mkHeading2 "Business & Marketing Insights"]
  ++ bulleted_list ins.business_and_marketing
      "No business or marketing insights in this episode."
  ++ [Block.divider, mkHeading2 "Key Takeaways"]
  ++ bulleted_list ins.key_takeaways "No standout takeaways noted."
  ++ [Block.divider, mkHeading3 "Original Episode Description",
      mkParagraph (if ep.description.isEmpty then "No description available."
        else trunc ep.description)]

/-- Rich text strings submitted by the page properties built in
_build_properties: the Name title and, when the database has the property,
the Podcast Name rich text. clean_title abstracts the _clean_title regex. -/
def build_properties_texts (clean_title : String → String) (ep : Episode)
    (existing_props : List String) : List String :=
  [trunc ("[Ep. " ++ toString ep.number ++ "] " ++ clean_title ep.title)]
  ++ (if existing_props.contains "Podcast Name" then [trunc ep.podcast_name] else [])

/-- Batches issued by the append loop in create_episode_page: Python
range(0, len(remaining), limit) with slices remaining[i : i + limit]. -/
def py_slice_batches (s : Nat) (l : List Block) : List (List Block) :=
  (pyRange l.length s).map (fun i => (l.drop i).take s)

/-- Write calls issued by create_episode_page: one creation call carrying the
first batch of blocks and one append call per further batch. -/
structure PageCalls where
  create_children : List Block
  append_batches : List (List Block)
deriving DecidableEq

/-- Embedding of the chunked write logic of create_episode_page. -/
def create_episode_page_calls (ep : Episode) (ins : BrewingInsights) : PageCalls :=
  { create_children := (build_blocks ep ins).take NOTION_BLOCK_LIMIT
  , append_batches :=
      py_slice_batches NOTION_BLOCK_LIMIT ((build_blocks ep ins).drop NOTION_BLOCK_LIMIT) }

/-- Rich text contents of a block. -/
def blockTexts : Block → List String
  | .callout t _ => [t]
  | .divider => []
  | .heading2 t => [t]
  | .heading3 t => [t]
  | .paragraph t => [t]
  | .bulletedItem t => [t]

/-- Every rich text of the block is within the text limit. -/
def blockShort (b : Block) : Prop :=
  ∀ s ∈ blockTexts b, s.length ≤ NOTION_TEXT_LIMIT

/-! ### notion_writer helper lemmas -/

lemma trunc_length_le (s : String) : (trunc s).length ≤ NOTION_TEXT_LIMIT := by
  unfold trunc NOTION_TEXT_LIMIT
  rw [String.take_eq]
  show (s.1.take 2000).length ≤ 2000
  rw [List.length_take]
  exact Nat.min_le_left _ _

lemma length_le_of_eq_trunc {s t : String} (h : s = trunc t) :
    s.length ≤ NOTION_TEXT_LIMIT :=
  Nat.le_trans (Nat.le_of_eq (congrArg String.length h)) (trunc_length_le t)

lemma blockShort_mkCallout (t e : String) : blockShort (mkCallout t e) := by
  intro s hs
  exact length_le_of_eq_trunc (List.mem_singleton.mp hs)

lemma blockShort_divider : blockShort Block.divider := by
  intro s hs
  exact absurd hs (List.not_mem_nil s)

lemma blockShort_mkHeading2 (t : String) : blockShort (mkHeading2 t) := by
  intro s hs
  exact length_le_of_eq_trunc (List.mem_singleton.mp hs)

lemma blockShort_mkHeading3 (t : String) : blockShort (mkHeading3 t) := by
  intro s hs
  exact length_le_of_eq_trunc (List.mem_singleton.mp hs)

lemma blockShort_mkParagraph (t : String) : blockShort (mkParagraph t) := by
  intro s hs
  exact length_le_of_eq_trunc (List.mem_singleton.mp hs)

lemma blockShort_bulleted (items : List String) (empty_text : String) :
    ∀ b ∈ bulleted_list items empty_text, blockShort b := by
  intro b hb
  unfold bulleted_list at hb
  by_cases hi : items.isEmpty = true
  · rw [if_pos hi] at hb
    by_cases he : empty_text.isEmpty = true
    · rw [if_pos he] at hb
      exact absurd hb (List.not_mem_nil b)
    · rw [if_neg he] at hb
      rw [List.mem_singleton.mp hb]
      exact blockShort_mkParagraph empty_text
  · rw [if_neg hi] at hb
    obtain ⟨i, _, hbi⟩ := List.mem_map.mp hb
    intro s hs
    rw [← hbi] at hs
    exact length_le_of_eq_trunc (List.mem_singleton.mp hs)

lemma blockShort_recipe (r : RecipeEntry) : ∀ b ∈ recipe_blocks r, blockShort b := by
  intro b hb
  rcases List.mem_cons.mp hb with h | h
  · rw [h]
    exact blockShort_mkHeading3 r.name
  · exact blockShort_bulleted _ _ b h

lemma blockShort_append (L1 L2 : List Block)
    (h1 : ∀ x ∈ L1, blockShort x) (h2 : ∀ x ∈ L2, blockShort x) :
    ∀ x ∈ L1 ++ L2, blockShort x :=
  fun x hx => (List.mem_append.mp hx).elim (h1 x) (h2 x)

lemma blockShort_lit3a (ins : BrewingInsights) :
    ∀ x ∈ [mkCallout ins.episode_summary "🍺", Block.divider,
      mkHeading2 "Brewing Techniques"], blockShort x := by
  intro x hx
  simp only [List.mem_cons, List.not_mem_nil, or_false] at hx
  rcases hx with h | h | h
  · rw [h]
    exact blockShort_mkCallout _ _
  · rw [h]
    exact blockShort_divider
  · rw [h]
    exact blockShort_mkHeading2 _

lemma blockShort_divider_heading2 (t : String) :
    ∀ x ∈ [Block.divider, mkHeading2 t], blockShort x := by
  intro x hx
  simp only [List.mem_cons, List.not_mem_nil, or_false] at hx
  rcases hx with h | h
  · rw [h]
    exact blockShort_divider
  · rw [h]
    exact blockShort_mkHeading2 _

lemma blockShort_recipes_section (ins : BrewingInsights) :
    ∀ x ∈ (if ins.recipes.isEmpty then
        [mkParagraph "No recipes discussed in this episode."]
      else ins.recipes.flatMap recipe_blocks), blockShort x := by
  intro x hx
  by_cases hr : ins.recipes.isEmpty = true
  · rw [if_pos hr] at hx
    rw [List.mem_singleton.mp hx]
    exact blockShort_mkParagraph _
  · rw [if_neg hr] at hx
    obtain ⟨r, _, hxr⟩ := List.mem_flatMap.mp hx
    exact blockShort_recipe r x hxr

lemma blockShort_tail_lit (ep : Episode) :
    ∀ x ∈ [Block.divider, mkHeading3 "Original Episode Description",
      mkParagraph (if ep.description.isEmpty then "No description available."
        else trunc ep.description)], blockShort x := by
  intro x hx
  simp only [List.mem_cons, List.not_mem_nil, or_false] at hx
  rcases hx with h | h | h
  · rw [h]
    exact blockShort_divider
  · rw [h]
    exact blockShort_mkHeading3 _
  · rw [h]
    exact blockShort_mkParagraph _

lemma blockShort_build (ep : Episode) (ins : BrewingInsights) :
    ∀ b ∈ build_blocks ep ins, blockShort b := by
  unfold build_blocks
  refine blockShort_append _ _ (blockShort_append _ _ (blockShort_append _ _
    (blockShort_append _ _ (blockShort_append _ _ (blockShort_append _ _
      (blockShort_append _ _ (blockShort_append _ _ (blockShort_append _ _
        (blockShort_append _ _ (blockShort_lit3a ins) (blockShort_bulleted _ _))
        (blockShort_divider_heading2 _)) (blockShort_recipes_section ins))
      (blockShort_divider_heading2 _)) (blockShort_bulleted _ _))
    (blockShort_divider_heading2 _)) (blockShort_bulleted _ _))
    (blockShort_divider_heading2 _)) (blockShort_bulleted _ _))
    (blockShort_tail_lit ep)

lemma length_py_slice_batches (s : Nat) (l : List Block) :
    (py_slice_batches s l).length = (l.length + s - 1) / s := by
  simp [py_slice_batches, pyRange]

lemma batch_le_py_slice_batches (s : Nat) (l : List Block) :
    ∀ c ∈ py_slice_batches s l, c.length ≤ s := by
  intro c hc
  obtain ⟨i, _, rfl⟩ := List.mem_map.mp hc
  rw [List.length_take]
  exact Nat.min_le_left _ _

lemma flatten_slices_aux (s : Nat) (hs : 1 ≤ s) :
    ∀ (c : Nat) (l : List Block) (j : Nat), c = (l.length - j + s - 1) / s →
      ((List.range' j c s).map (fun i => (l.drop i).take s)).flatten = l.drop j := by
  intro c
  induction c with
  | zero =>
    intro l j hc
    rw [List.range'_zero, List.map_nil, List.flatten_nil]
    symm
    rw [List.drop_eq_nil_iff]
    have h0 : (l.length - j + s - 1) / s = 0 := hc.symm
    have h1 : l.length - j + s - 1 < s := (Nat.div_eq_zero_iff (by omega)).mp h0
    omega
  | succ c ih =>
    intro l j hc
    rw [List.range'_succ, List.map_cons, List.flatten_cons]
    have hm : 1 ≤ l.length - j := by
      by_contra hcon
      have h0 : l.length - j = 0 := by omega
      rw [h0] at hc
      have : (0 + s - 1) / s = 0 := Nat.div_eq_of_lt (by omega)
      omega
    have key : (l.length - j + s - 1) / s = (l.length - j - 1) / s + 1 := by
      have h2 : l.length - j + s - 1 = (l.length - j - 1) + s := by omega
      rw [h2, Nat.add_div_right _ (by omega)]
    have hc2 : c = (l.length - j - 1) / s := by omega
    have hnext : c = (l.length - (j + s) + s - 1) / s := by
      by_cases hms : j + s + 1 ≤ l.length
      · have h3 : l.length - (j + s) + s - 1 = l.length - j - 1 := by omega
        rw [h3]
        exact hc2
      · have h0 : l.length - (j + s) = 0 := by omega
        rw [h0]
        have h4 : (0 + s - 1) / s = 0 := Nat.div_eq_of_lt (by omega)
        rw [h4, hc2]
        exact Nat.div_eq_of_lt (by omega)
    rw [ih l (j + s) hnext]
    have hdd : l.drop (j + s) = (l.drop j).drop s := by
      rw [List.drop_drop]
    rw [hdd, List.take_append_drop]

lemma flatten_py_slice_batches (s : Nat) (hs : 1 ≤ s) (l : List Block) :
    (py_slice_batches s l).flatten = l := by
  have h := flatten_slices_aux s hs ((l.length - 0 + s - 1) / s) l 0 rfl
  rw [List.drop_zero] at h
  unfold py_slice_batches pyRange
  rw [show l.length + s - 1 = l.length - 0 + s - 1 from by omega]
  exact h

/-- C9. Publication write calls: the creation call carries the first
min(B, 100) blocks, the append calls carry ceil(max(B - 100, 0) / 100)
batches of at most 100 blocks each, the concatenation of all calls equals
the rendered block list in order, and every rich text string submitted in a
block or property is at most 2000 characters. -/
theorem c9_page_call_chunking (clean_title : String → String) (ep : Episode)
    (ins : BrewingInsights) (existing_props : List String) :
    ((create_episode_page_calls ep ins).create_children
        = (build_blocks ep ins).take NOTION_BLOCK_LIMIT
      ∧ (create_episode_page_calls ep ins).create_children.length
        = min NOTION_BLOCK_LIMIT (build_blocks ep ins).length)
    ∧ (create_episode_page_calls ep ins).append_batches.length
      = ((build_blocks ep ins).length - NOTION_BLOCK_LIMIT + NOTION_BLOCK_LIMIT - 1)
        / NOTION_BLOCK_LIMIT
    ∧ (∀ batch ∈ (create_episode_page_calls ep ins).append_batches,
        batch.length ≤ NOTION_BLOCK_LIMIT)
    ∧ (create_episode_page_calls ep ins).create_children
        ++ (create_episode_page_calls ep ins).append_batches.flatten
      = build_blocks ep ins
    ∧ (∀ b ∈ build_blocks ep ins, ∀ s ∈ blockTexts b, s.length ≤ NOTION_TEXT_LIMIT)
    ∧ (∀ s ∈ build_properties_texts clean_title ep existing_props,
        s.length ≤ NOTION_TEXT_LIMIT) := by
  refine ⟨⟨rfl, ?_⟩, ?_, ?_, ?_, ?_, ?_⟩
  · exact List.length_take _ _
  · show (py_slice_batches NOTION_BLOCK_LIMIT
        ((build_blocks ep ins).drop NOTION_BLOCK_LIMIT)).length = _
    rw [length_py_slice_batches, List.length_drop]
  · exact batch_le_py_slice_batches _ _
  · show (build_blocks ep ins).take NOTION_BLOCK_LIMIT
        ++ (py_slice_batches NOTION_BLOCK_LIMIT
          ((build_blocks ep ins).drop NOTION_BLOCK_LIMIT)).flatten
      = build_blocks ep ins
    rw [flatten_py_slice_batches NOTION_BLOCK_LIMIT (by decide), List.take_append_drop]
  · exact blockShort_build ep ins
  · intro s hs
    unfold build_properties_texts at hs
    rcases List.mem_append.mp hs with h | h
    · exact length_le_of_eq_trunc (List.mem_singleton.mp h)
    · by_cases hp : existing_props.contains "Podcast Name" = true
      · rw [if_pos hp] at h
        exact length_le_of_eq_trunc (List.mem_singleton.mp h)
      · rw [if_neg hp] at h
        exact absurd h (List.not_mem_nil s)

/-- Closed witness for the chunking theorem at a concrete episode with empty
insights: the calls reassemble the rendered blocks. -/
theorem c9_page_call_chunking_witness :
    (create_episode_page_calls (mkEp 1)
        { episode_summary := "", brewing_techniques := [], recipes := [],
          ingredients_and_products := [], business_and_marketing := [],
          key_takeaways := [] }).create_children
      ++ (create_episode_page_calls (mkEp 1)
        { episode_summary := "", brewing_techniques := [], recipes := [],
          ingredients_and_products := [], business_and_marketing := [],
          key_takeaways := [] }).append_batches.flatten
    = build_blocks (mkEp 1)
        { episode_summary := "", brewing_techniques := [], recipes := [],
          ingredients_and_products := [], business_and_marketing := [],
          key_takeaways := [] } :=
  (c9_page_call_chunking (fun s => s) (mkEp 1)
    { episode_summary := "", brewing_techniques := [], recipes := [],
      ingredients_and_products := [], business_and_marketing := [],
      key_takeaways := [] } []).2.2.2.1

end Podscriber
